import Mathlib

/-!
Verification of the 75-soft habit-tracker state engine.

Shallow embedding of the tracker state engine of `src/App.tsx` (two cosmetic
variants of the same React component live in that file; the second variant's
engine functions are embedded separately in namespace `V2` and proved equal to
the first).

Modelling conventions:

* A JS object `TrackerState = Record<number, DayState>` is embedded as a list
  of key/value pairs in enumeration order.  For integer-like keys, JS objects
  enumerate keys in ascending numeric order, and a spread update
  `{...prev, [day]: v}` with `day` already present replaces the value at its
  existing key.
* `toggle` evaluates `prev[day][habit]`; when `day` is absent, `prev[day]` is
  `undefined` and the property read throws a `TypeError`.  A thrown exception
  is modelled as `none`.
* Booleans, lists and naturals are exact; there is no floating point in the
  engine except inside `percentDone`, whose rounding is analysed at its
  definition.
-/

/-- The five habit kinds, `type Habit = "diet" | "water" | "book" | "workout" | "pic"`. -/
inductive Habit : Type
  | diet
  | water
  | book
  | workout
  | pic
deriving DecidableEq, Repr, Fintype

/-- One flag per habit, `type DayState = Record<Habit, boolean>`; all five keys always present. -/
structure DayState : Type where
  diet : Bool
  water : Bool
  book : Bool
  workout : Bool
  pic : Bool
deriving DecidableEq, Repr

/-- Property read `day[h]` on a `DayState` object. -/
def DayState.get (r : DayState) : Habit → Bool
  | Habit.diet => r.diet
  | Habit.water => r.water
  | Habit.book => r.book
  | Habit.workout => r.workout
  | Habit.pic => r.pic

/-- Property write `{...day, [h]: b}` on a `DayState` object. -/
def DayState.set (r : DayState) (h : Habit) (b : Bool) : DayState :=
  match h with
  | Habit.diet => { r with diet := b }
  | Habit.water => { r with water := b }
  | Habit.book => { r with book := b }
  | Habit.workout => { r with workout := b }
  | Habit.pic => { r with pic := b }

/-- The habit list `const HABITS: Habit[] = ["diet", "water", "book", "workout", "pic"]`. -/
def HABITS : List Habit :=
  [Habit.diet, Habit.water, Habit.book, Habit.workout, Habit.pic]

/-- Tracker state `type TrackerState = Record<number, DayState>`, a JS object embedded as its
entry list in enumeration order (ascending day number for reachable states). -/
abbrev TrackerState : Type := List (Nat × DayState)

/-- The day record with every flag false:
`{ diet: false, water: false, book: false, workout: false, pic: false }`. -/
def emptyDay : DayState :=
  { diet := false, water := false, book := false, workout := false, pic := false }

/-- Builds the empty tracker, `makeEmptyState()`: one entry per day `1..75`, all flags false. -/
def makeEmptyState : TrackerState :=
  (List.range 75).map (fun i => (i + 1, emptyDay))

/-- The property read `prev[day]` on the tracker object: the value at the first
(and, for reachable states, only) entry with key `day`; `none` is JS `undefined`. -/
def lookupDay (s : TrackerState) (day : Nat) : Option DayState :=
  (s.find? (fun p => p.1 = day)).map (fun p => p.2)

/-- The spread update `{...prev, [day]: v}` in the case where key `day` is
already present: the value at key `day` is replaced in place. -/
def mapUpd (s : TrackerState) (day : Nat) (v : DayState) : TrackerState :=
  s.map (fun p => if p.1 = day then (day, v) else p)

/-- State update of `toggle(day, habit)`:
`prev => ({...prev, [day]: {...prev[day], [habit]: !prev[day][habit]}})`.
When `day` is not a key of `prev`, `prev[day]` is `undefined` and evaluating
`prev[day][habit]` throws a `TypeError`; the thrown exception is `none`. -/
def toggle (s : TrackerState) (day : Nat) (h : Habit) : Option TrackerState :=
  match lookupDay s day with
  | none => none
  | some r => some (mapUpd s day (r.set h (!(r.get h))))

/-- The inner reduction `HABITS.reduce((a, h) => a + (day[h] ? 1 : 0), 0)`:
the count of true flags in one day record. -/
def dayDone (r : DayState) : Nat :=
  HABITS.foldl (fun a h => a + (if r.get h then 1 else 0)) 0

/-- The `done` reduction `Object.values(state).reduce((acc, day) => acc + HABITS.reduce(...), 0)`,
the count of true flags over all entries of the state object. -/
def doneCount (s : TrackerState) : Nat :=
  s.foldl (fun acc p => acc + dayDone p.2) 0

/-- Progress percentage `percentDone = Math.round((done / total) * 100)` with `total = 75 * HABITS.length = 375`.

The JS computation is on IEEE doubles.  For `0 ≤ done`, the exact rational
`done * 100 / 375 = done * 4 / 15` is never within `1/30` of an odd multiple of
`1/2` (an exact tie would force `15 ∣ 8 * done` with `8 * done / 15` odd, which
is impossible), while the two double roundings perturb the value by far less
than `1/30` for `done ≤ 375`; hence `Math.round` of the computed double equals
exact round-half-up, which on naturals is `(2 * p + q) / (2 * q)` for `p / q`. -/
def percentDone (s : TrackerState) : Nat :=
  (2 * (doneCount s * 100) + 375) / (2 * 375)

/-- Day numbers `1..75` in ascending order, the key list of every reachable state. -/
def days75 : List Nat :=
  (List.range 75).map (fun i => i + 1)

/-- A tracker state is well formed when its entry list has exactly the keys
`1..75` in enumeration order — the invariant every reachable state satisfies. -/
def WF (s : TrackerState) : Prop :=
  s.map Prod.fst = days75

instance (s : TrackerState) : Decidable (WF s) := by
  unfold WF; infer_instance

/-- The flag at `[d][h]`, read through the object lookup (`false` for a missing day,
matching the spec's all-false default; only used on days that are present). -/
def getFlag (s : TrackerState) (d : Nat) (h : Habit) : Bool :=
  ((lookupDay s d).getD emptyDay).get h

/-- The flag at `[d][h]` as an optional value: `none` when day `d` has no entry. -/
def optFlag (s : TrackerState) (d : Nat) (h : Habit) : Option Bool :=
  (lookupDay s d).map (fun r => r.get h)

/-- Spec-side numerator (spec §4.1 `computeProgress`, unrestricted-pic policy):
the count of true flags across all five habits for all 75 days. -/
def specNumerator (s : TrackerState) : Nat :=
  (days75.map (fun d => (HABITS.filter (fun h => getFlag s d h)).length)).sum

/-- Spec-side result: `round(100 × numerator / denominator)` rounded half-up,
on naturals `⌊(2 * (100 * num) + den) / (2 * den)⌋`. -/
def specProgress (num den : Nat) : Nat :=
  (2 * (100 * num) + den) / (2 * den)

/-- The spec's example scenario: from the empty state, toggle `(day 1, diet)` and
then `(day 1, water)` (both toggles succeed, `getD` is never the fallback). -/
def c1ExampleState : TrackerState :=
  ((toggle makeEmptyState 1 Habit.diet).bind (fun s => toggle s 1 Habit.water)).getD
    makeEmptyState

theorem foldl_add_eq {α : Type} (g : α → Nat) :
    ∀ (l : List α) (n : Nat), l.foldl (fun a x => a + g x) n = n + (l.map g).sum
  | [], n => by simp
  | x :: t, n => by
    simp only [List.foldl_cons, List.map_cons, List.sum_cons, foldl_add_eq g t]
    omega

theorem doneCount_eq_sum (s : TrackerState) :
    doneCount s = (s.map (fun p => dayDone p.2)).sum := by
  simpa using foldl_add_eq (fun p : Nat × DayState => dayDone p.2) s 0

theorem dayDone_eq_filterLength (r : DayState) :
    dayDone r = (HABITS.filter (fun h => r.get h)).length := by
  rcases r with ⟨a, b, c, d, e⟩
  cases a <;> cases b <;> cases c <;> cases d <;> cases e <;> rfl

theorem lookupDay_cons_self (k : Nat) (v : DayState) (t : TrackerState) :
    lookupDay ((k, v) :: t) k = some v := by
  simp [lookupDay, List.find?_cons]

theorem lookupDay_cons_ne (k d : Nat) (v : DayState) (t : TrackerState) (hne : d ≠ k) :
    lookupDay ((k, v) :: t) d = lookupDay t d := by
  simp [lookupDay, List.find?_cons, Ne.symm hne]

theorem sum_over_keys (f : DayState → Nat) :
    ∀ s : TrackerState, (s.map Prod.fst).Nodup →
      ((s.map Prod.fst).map (fun d => f ((lookupDay s d).getD emptyDay))).sum =
        (s.map (fun p => f p.2)).sum
  | [], _ => rfl
  | (k, v) :: t, hnd => by
    simp only [List.map_cons, List.sum_cons, List.nodup_cons, List.mem_map] at hnd ⊢
    have hk : lookupDay ((k, v) :: t) k = some v := lookupDay_cons_self k v t
    have htail : (t.map Prod.fst).map
        (fun d => f ((lookupDay ((k, v) :: t) d).getD emptyDay)) =
        (t.map Prod.fst).map (fun d => f ((lookupDay t d).getD emptyDay)) := by
      refine List.map_congr_left (fun d hd => ?_)
      have hdk : d ≠ k := by
        rintro rfl
        rcases List.mem_map.mp hd with ⟨p, hp, hpd⟩
        exact hnd.1 ⟨p, hp, hpd⟩
      rw [lookupDay_cons_ne k d v t hdk]
    rw [hk, htail, sum_over_keys f t hnd.2]
    rfl

theorem days75_nodup : days75.Nodup := by
  exact List.Nodup.map (fun a b h => by omega) (List.nodup_range 75)

theorem doneCount_eq_specNumerator (s : TrackerState) (hs : WF s) :
    doneCount s = specNumerator s := by
  have hmap : days75.map (fun d => (HABITS.filter (fun h => getFlag s d h)).length) =
      days75.map (fun d => dayDone ((lookupDay s d).getD emptyDay)) := by
    refine List.map_congr_left (fun d _ => ?_)
    rw [dayDone_eq_filterLength]
    rfl
  have hkeys : s.map Prod.fst = days75 := hs
  rw [specNumerator, hmap, ← hkeys,
    sum_over_keys (fun r => dayDone r) s (hkeys ▸ days75_nodup), doneCount_eq_sum]

theorem DayState.get_set_self (r : DayState) (h : Habit) (b : Bool) :
    (r.set h b).get h = b := by
  cases h <;> rfl

theorem DayState.get_set_ne (r : DayState) (h h2 : Habit) (b : Bool) (hne : h2 ≠ h) :
    (r.set h b).get h2 = r.get h2 := by
  cases h <;> cases h2 <;> first | rfl | exact absurd rfl hne

theorem DayState.set_set (r : DayState) (h : Habit) (b c : Bool) :
    (r.set h b).set h c = r.set h c := by
  cases h <;> rfl

theorem DayState.set_get_self (r : DayState) (h : Habit) :
    r.set h (r.get h) = r := by
  cases h <;> rfl

theorem lookupDay_mapUpd_self (s : TrackerState) (day : Nat) (v : DayState) :
    lookupDay (mapUpd s day v) day = (lookupDay s day).map (fun _ => v) := by
  unfold lookupDay mapUpd
  rw [List.find?_map]
  have hpred : ((fun p : Nat × DayState => decide (p.1 = day)) ∘
      (fun p => if p.1 = day then (day, v) else p)) =
      (fun p : Nat × DayState => decide (p.1 = day)) := by
    funext p
    by_cases hp : p.1 = day <;> simp [hp]
  rw [hpred]
  cases hfind : s.find? (fun p : Nat × DayState => decide (p.1 = day)) with
  | none => rfl
  | some x =>
    have hx : x.1 = day := by simpa using List.find?_some hfind
    simp [hx]

theorem lookupDay_mapUpd_ne (s : TrackerState) (day d : Nat) (v : DayState) (hne : d ≠ day) :
    lookupDay (mapUpd s day v) d = lookupDay s d := by
  unfold lookupDay mapUpd
  rw [List.find?_map]
  have hpred : ((fun p : Nat × DayState => decide (p.1 = d)) ∘
      (fun p => if p.1 = day then (day, v) else p)) =
      (fun p : Nat × DayState => decide (p.1 = d)) := by
    funext p
    by_cases hp : p.1 = day <;> simp [hp, fun h : day = d => hne h.symm]
  rw [hpred]
  cases hfind : s.find? (fun p : Nat × DayState => decide (p.1 = d)) with
  | none => rfl
  | some x =>
    have hx : x.1 = d := by simpa using List.find?_some hfind
    have hxday : ¬x.1 = day := by rw [hx]; exact hne
    simp [hxday]

theorem mapUpd_mapUpd (s : TrackerState) (day : Nat) (v w : DayState) :
    mapUpd (mapUpd s day v) day w = mapUpd s day w := by
  simp only [mapUpd, List.map_map]
  refine List.map_congr_left (fun p _ => ?_)
  by_cases hp : p.1 = day <;> simp [hp]

theorem mapUpd_keys (s : TrackerState) (day : Nat) (v : DayState) :
    (mapUpd s day v).map Prod.fst = s.map Prod.fst := by
  simp only [mapUpd, List.map_map]
  refine List.map_congr_left (fun p _ => ?_)
  by_cases hp : p.1 = day <;> simp [hp]

theorem mapUpd_of_not_mem (s : TrackerState) (day : Nat) (v : DayState)
    (hnm : day ∉ s.map Prod.fst) : mapUpd s day v = s := by
  induction s with
  | nil => rfl
  | cons p t ih =>
    simp only [List.map_cons, List.mem_cons, not_or] at hnm
    have hp : p.1 ≠ day := fun hc => hnm.1 hc.symm
    simp only [mapUpd, List.map_cons, if_neg hp]
    exact congrArg (p :: ·) (ih hnm.2)

theorem mapUpd_self_of_lookup (s : TrackerState) (day : Nat) (r : DayState)
    (hnd : (s.map Prod.fst).Nodup) (hl : lookupDay s day = some r) :
    mapUpd s day r = s := by
  induction s with
  | nil => simp [lookupDay] at hl
  | cons p t ih =>
    simp only [List.map_cons, List.nodup_cons] at hnd
    by_cases hp : p.1 = day
    · have hr : p.2 = r := by
        rw [lookupDay, List.find?_cons_of_pos _ (by simpa using hp)] at hl
        simpa using hl
      have ht : mapUpd t day r = t := by
        refine mapUpd_of_not_mem t day r (fun hmem => hnd.1 ?_)
        rwa [hp]
      have hpair : (if p.1 = day then ((day, r) : Nat × DayState) else p) = p := by
        rcases p with ⟨pk, pv⟩
        simp only at hp hr
        simp [hp, hr]
      simp only [mapUpd, List.map_cons]
      rw [hpair]
      exact congrArg (p :: ·) (by simpa [mapUpd] using ht)
    · rw [lookupDay, List.find?_cons_of_neg _ (by simpa using hp)] at hl
      simp only [mapUpd, List.map_cons, if_neg hp]
      exact congrArg (p :: ·) (by simpa [mapUpd] using ih hnd.2 hl)

theorem mem_days75 (day : Nat) : day ∈ days75 ↔ 1 ≤ day ∧ day ≤ 75 := by
  simp only [days75, List.mem_map, List.mem_range]
  constructor
  · rintro ⟨i, hi, rfl⟩; omega
  · rintro ⟨h1, h2⟩; exact ⟨day - 1, by omega, by omega⟩

theorem lookupDay_isSome (s : TrackerState) (day : Nat) :
    (lookupDay s day).isSome ↔ day ∈ s.map Prod.fst := by
  simp only [lookupDay, Option.isSome_map', List.find?_isSome, List.mem_map]
  constructor
  · rintro ⟨p, hp, hpd⟩; exact ⟨p, hp, by simpa using hpd⟩
  · rintro ⟨p, hp, hpd⟩; exact ⟨p, hp, by simpa using hpd⟩

theorem lookupDay_of_WF (s : TrackerState) (day : Nat) (hs : WF s)
    (hday : 1 ≤ day ∧ day ≤ 75) : ∃ r, lookupDay s day = some r := by
  have hmem : day ∈ s.map Prod.fst := by
    rw [hs, mem_days75]; exact hday
  rcases Option.isSome_iff_exists.mp ((lookupDay_isSome s day).mpr hmem) with ⟨r, hr⟩
  exact ⟨r, hr⟩

theorem WF_keys_nodup (s : TrackerState) (hs : WF s) : (s.map Prod.fst).Nodup := by
  rw [hs]; exact days75_nodup

/-- JSON values, the common image of `JSON.parse` and domain of `JSON.stringify`.
The persisted format uses only booleans and objects; number payloads never occur
there and are modelled as integers for concreteness (no claim inspects them). -/
inductive Json : Type
  | null
  | bool (b : Bool)
  | num (n : Int)
  | str (s : String)
  | arr (l : List Json)
  | obj (l : List (String × Json))

/-- A raw string held by the store, as observed by the engine: the engine only
ever tests a raw string for truthiness (`raw ? ... : initial`, false exactly on
the empty string) and feeds it to `JSON.parse`, so raw strings are represented
by that behaviour: the empty string, a nonempty string `JSON.parse` throws on,
or a nonempty string parsing to a JSON value. -/
inductive Raw : Type
  | empty
  | malformed
  | val (j : Json)

/-- Fixed key `const STORAGE_KEY = "75soft-tracker-v1"`. -/
def STORAGE_KEY : String := "75soft-tracker-v1"

/-- Fixed key `const DATE_KEY = "75soft-startDate"`. -/
def DATE_KEY : String := "75soft-startDate"

/-- The key-value store collaborator (`localStorage`): `none` is a missing key
(`getItem` returns `null`). -/
abbrev Store : Type := String → Option Raw

/-- Image under `JSON.stringify` of a `DayState` object: keys in insertion order. -/
def encodeDay (r : DayState) : Json :=
  Json.obj [("diet", Json.bool r.diet), ("water", Json.bool r.water),
    ("book", Json.bool r.book), ("workout", Json.bool r.workout),
    ("pic", Json.bool r.pic)]

/-- Image under `JSON.stringify` of a tracker object: one key per day, in enumeration
order (ascending numeric, rendered in decimal), per spec §6's persisted format. -/
def encodeState (s : TrackerState) : Json :=
  Json.obj (s.map (fun p => (Nat.repr p.1, encodeDay p.2)))

/-- The lazy initializer of `useLocalStorageState`:
`try { const raw = localStorage.getItem(key); return raw ? JSON.parse(raw) : initial } catch { return initial }`.
A missing key, the falsy empty string, and a `JSON.parse` throw (caught by the
`catch`) all fall back to `initial`; otherwise the parsed value is returned. -/
def load (store : Store) (key : String) (initial : Json) : Json :=
  match store key with
  | none => initial
  | some Raw.empty => initial
  | some Raw.malformed => initial
  | some (Raw.val j) => j

/-- The persisting effect of `useLocalStorageState`:
`localStorage.setItem(key, JSON.stringify(val))`.  `JSON.stringify` of an
object is a nonempty string that `JSON.parse` maps back to an equal value, so
the written blob is `Raw.val v`. -/
def save (store : Store) (key : String) (v : Json) : Store :=
  fun k => if k = key then some (Raw.val v) else store k

/-- The tracker slot: `useLocalStorageState(STORAGE_KEY, makeEmptyState())`, read. -/
def loadTracker (store : Store) : Json :=
  load store STORAGE_KEY (encodeState makeEmptyState)

/-- The tracker slot, written with state `s`. -/
def saveTracker (store : Store) (s : TrackerState) : Store :=
  save store STORAGE_KEY (encodeState s)

/-- Reading back a `DayState` from its persisted JSON object (spec §6 format:
the five habit keys in order, boolean values). -/
def decodeDay (j : Json) : Option DayState :=
  match j with
  | Json.obj [(k1, Json.bool a), (k2, Json.bool b), (k3, Json.bool c),
      (k4, Json.bool d), (k5, Json.bool e)] =>
    if k1 = "diet" ∧ k2 = "water" ∧ k3 = "book" ∧ k4 = "workout" ∧ k5 = "pic" then
      some { diet := a, water := b, book := c, workout := d, pic := e }
    else none
  | _ => none

/-- Reading back a `TrackerState` from its persisted JSON object (spec §6:
keys `"1"`..`"75"`, each a `DayRecord` object).  Used to state that the
persisted blob determines the state exactly. -/
def decodeState (j : Json) : Option TrackerState :=
  match j with
  | Json.obj l =>
    if l.map Prod.fst = days75.map Nat.repr then
      (l.mapM (fun p => decodeDay p.2)).map (fun rs => days75.zip rs)
    else none
  | _ => none

/-- Reset handler `resetAll`: `if (confirm("Resetovat všechna políčka?")) setState(makeEmptyState())`.
The confirmation collaborator's answer is the boolean argument. -/
def resetAll (confirmed : Bool) (s : TrackerState) : TrackerState :=
  if confirmed then makeEmptyState else s

/-- The two persisted slots of the `App` component: the tracker state
(`STORAGE_KEY`) and the informational start date (`DATE_KEY`). -/
structure AppState : Type where
  tracker : TrackerState
  startDate : String

/-- The `toggle` operation lifted to the whole component state: only the tracker slot is read
and written. -/
def appToggle (a : AppState) (day : Nat) (h : Habit) : Option AppState :=
  (toggle a.tracker day h).map (fun t => { a with tracker := t })

/-- The `resetAll` operation lifted to the whole component state. -/
def appResetAll (confirmed : Bool) (a : AppState) : AppState :=
  { a with tracker := resetAll confirmed a.tracker }

/-- The `percentDone` value over the component state: computed from the tracker slot only. -/
def appPercentDone (a : AppState) : Nat :=
  percentDone a.tracker

/-- The date input's `onChange`: `setStartDate(e.target.value)`. -/
def setStartDate (a : AppState) (d : String) : AppState :=
  { a with startDate := d }

theorem decodeDay_encodeDay (r : DayState) : decodeDay (encodeDay r) = some r := by
  rcases r with ⟨a, b, c, d, e⟩
  rfl

theorem mapM_decode_encode (l : List (Nat × DayState)) :
    (l.map (fun p => (Nat.repr p.1, encodeDay p.2))).mapM (fun p => decodeDay p.2) =
      some (l.map Prod.snd) := by
  induction l with
  | nil => rfl
  | cons p t ih =>
    simp only [List.map_cons, List.mapM_cons, decodeDay_encodeDay, ih]
    rfl

theorem decodeState_encodeState (s : TrackerState) (hs : WF s) :
    decodeState (encodeState s) = some s := by
  have hkeys : (s.map (fun p => (Nat.repr p.1, encodeDay p.2))).map Prod.fst =
      days75.map Nat.repr := by
    rw [List.map_map, ← hs, List.map_map]
    rfl
  simp only [encodeState, decodeState, if_pos hkeys, mapM_decode_encode, Option.map_some']
  exact congrArg some (List.zip_of_prod hs rfl).symm

namespace V2

/-- Second variant's `makeEmptyState()` (textually identical loop). -/
def makeEmptyState : TrackerState :=
  (List.range 75).map (fun i => (i + 1, emptyDay))

/-- Second variant's `toggle` state update (textually identical). -/
def toggle (s : TrackerState) (day : Nat) (h : Habit) : Option TrackerState :=
  match lookupDay s day with
  | none => none
  | some r => some (mapUpd s day (r.set h (!(r.get h))))

/-- Second variant's inner `HABITS.reduce` of `percentDone` (textually identical). -/
def dayDone (r : DayState) : Nat :=
  HABITS.foldl (fun a h => a + (if r.get h then 1 else 0)) 0

/-- Second variant's `done` reduction (textually identical, wrapped in `useMemo`). -/
def doneCount (s : TrackerState) : Nat :=
  s.foldl (fun acc p => acc + dayDone p.2) 0

/-- Second variant's `percentDone` (textually identical computation in `useMemo`). -/
def percentDone (s : TrackerState) : Nat :=
  (2 * (doneCount s * 100) + 375) / (2 * 375)

/-- Second variant's `resetAll` (textually identical). -/
def resetAll (confirmed : Bool) (s : TrackerState) : TrackerState :=
  if confirmed then makeEmptyState else s

/-- Second variant's `useLocalStorageState` initializer (textually identical). -/
def load (store : Store) (key : String) (initial : Json) : Json :=
  match store key with
  | none => initial
  | some Raw.empty => initial
  | some Raw.malformed => initial
  | some (Raw.val j) => j

/-- Second variant's `useLocalStorageState` persisting effect (textually identical). -/
def save (store : Store) (key : String) (v : Json) : Store :=
  fun k => if k = key then some (Raw.val v) else store k

end V2

theorem dayDone_le (r : DayState) : dayDone r ≤ 5 := by
  rw [dayDone_eq_filterLength]
  exact List.length_filter_le _ HABITS

theorem doneCount_le (s : TrackerState) (hs : WF s) : doneCount s ≤ 375 := by
  have hlen : s.length = 75 := by
    have h75 : (s.map Prod.fst).length = days75.length := congrArg List.length hs
    simpa [days75] using h75
  have hmem : ∀ x ∈ s.map (fun p => dayDone p.2), x ≤ 5 := by
    intro x hx
    rcases List.mem_map.mp hx with ⟨p, _, rfl⟩
    exact dayDone_le p.2
  have hsum : (s.map (fun p => dayDone p.2)).sum ≤ (s.map (fun p => dayDone p.2)).length • 5 :=
    List.sum_le_card_nsmul _ 5 hmem
  rw [doneCount_eq_sum]
  simpa [hlen] using hsum

/-- The state with exactly the one flag `(day 1, diet)` set, used to refute
the exactness parentheticals of the bounded-progress claim. -/
def oneFlagState : TrackerState :=
  (toggle makeEmptyState 1 Habit.diet).getD makeEmptyState

/-- C1: `computeProgress` is the rounded ratio per the spec formula: for every
tracker state over days 1..75, under the unrestricted-pic policy the
denominator is 375, the numerator counts the true flags across all five habits
for all 75 days, and the result is `round(100 * numerator / denominator)`
rounded half-up; on the empty state with exactly `(day 1, diet)` and
`(day 1, water)` true, the result is 1. -/
theorem C1_computeProgress_rounded_ratio (s : TrackerState) (hs : WF s) :
    percentDone s = specProgress (specNumerator s) 375 ∧
    percentDone c1ExampleState = 1 := by
  refine ⟨?_, by decide⟩
  rw [percentDone, specProgress, doneCount_eq_specNumerator s hs,
    Nat.mul_comm (specNumerator s) 100]

theorem C1_witness :
    WF makeEmptyState ∧
      (percentDone makeEmptyState = specProgress (specNumerator makeEmptyState) 375 ∧
        percentDone c1ExampleState = 1) :=
  ⟨by decide, C1_computeProgress_rounded_ratio makeEmptyState (by decide)⟩

/-- C2: persistence round-trip: saving any reachable tracker state under the
fixed key and loading it back yields exactly the saved blob, and that blob
determines the state: decoding it per the persisted format recovers `s`. -/
theorem C2_persistence_roundtrip (s : TrackerState) (hs : WF s) (store : Store) :
    loadTracker (saveTracker store s) = encodeState s ∧
    decodeState (encodeState s) = some s := by
  constructor
  · simp [loadTracker, saveTracker, load, save]
  · exact decodeState_encodeState s hs

theorem C2_witness :
    loadTracker (saveTracker (fun _ => none) makeEmptyState) = encodeState makeEmptyState ∧
      decodeState (encodeState makeEmptyState) = some makeEmptyState :=
  C2_persistence_roundtrip makeEmptyState (by decide) (fun _ => none)

/-- C3: double toggle is the identity: for every tracker state over days 1..75,
every in-range day and every habit, toggling the same cell twice returns the
original state (the code's pic policy is unrestricted, so no toggle is ever
forbidden and the law is never vacuous). -/
theorem C3_double_toggle_identity (s : TrackerState) (hs : WF s) (day : Nat)
    (hday : 1 ≤ day ∧ day ≤ 75) (h : Habit) :
    (toggle s day h).bind (fun s2 => toggle s2 day h) = some s := by
  obtain ⟨r, hr⟩ := lookupDay_of_WF s day hs hday
  have h1 : toggle s day h = some (mapUpd s day (r.set h (!(r.get h)))) := by
    simp only [toggle, hr]
  set r1 := r.set h (!(r.get h)) with hr1
  have h2 : lookupDay (mapUpd s day r1) day = some r1 := by
    rw [lookupDay_mapUpd_self, hr]
    rfl
  have h3 : toggle (mapUpd s day r1) day h =
      some (mapUpd (mapUpd s day r1) day (r1.set h (!(r1.get h)))) := by
    simp only [toggle, h2]
  have h4 : r1.set h (!(r1.get h)) = r := by
    rw [hr1, DayState.get_set_self, Bool.not_not, DayState.set_set, DayState.set_get_self]
  rw [h1]
  show toggle (mapUpd s day r1) day h = some s
  rw [h3, h4, mapUpd_mapUpd, mapUpd_self_of_lookup s day r (WF_keys_nodup s hs) hr]

theorem C3_witness :
    (WF makeEmptyState ∧ 1 ≤ 1 ∧ 1 ≤ 75) ∧
      (toggle makeEmptyState 1 Habit.diet).bind
        (fun s2 => toggle s2 1 Habit.diet) = some makeEmptyState :=
  ⟨by decide, C3_double_toggle_identity makeEmptyState (by decide) 1 (by decide) Habit.diet⟩

/-- C4 counterexample: the claim says an out-of-range toggle returns the state
unchanged; on the empty state at day 76 it does not — evaluating
`prev[76][habit]` throws a `TypeError` (modelled as `none`), so no state at all
is returned. -/
theorem C4_counterexample :
    ¬ toggle makeEmptyState 76 Habit.diet = some makeEmptyState := by
  decide

/-- C4 (amended): for every tracker state over days 1..75, every habit and
every day outside 1..75, `toggle` fails with a thrown `TypeError` (modelled as
`none`) rather than returning an updated state; in particular no state with a
new day entry is ever produced, so the 1..75 key invariant is never violated. -/
theorem C4_out_of_range_toggle_throws (s : TrackerState) (hs : WF s) (day : Nat)
    (hday : ¬(1 ≤ day ∧ day ≤ 75)) (h : Habit) :
    toggle s day h = none := by
  have hnone : lookupDay s day = none := by
    rw [← Option.not_isSome_iff_eq_none, lookupDay_isSome, hs, mem_days75]
    exact hday
  simp only [toggle, hnone]

theorem C4_witness :
    (WF makeEmptyState ∧ ¬(1 ≤ 76 ∧ 76 ≤ 75)) ∧
      toggle makeEmptyState 76 Habit.diet = none :=
  ⟨by decide, C4_out_of_range_toggle_throws makeEmptyState (by decide) 76 (by decide) Habit.diet⟩

/-- C5: toggle frame condition: for every tracker state over days 1..75, every
in-range day and habit, `toggle` succeeds, preserves the key list, flips
exactly the boolean at `[day][habit]`, and leaves every other `(day, habit)`
entry identical. -/
theorem C5_toggle_frame_condition (s : TrackerState) (hs : WF s) (day : Nat)
    (hday : 1 ≤ day ∧ day ≤ 75) (h : Habit) :
    ∃ s2, toggle s day h = some s2 ∧
      s2.map Prod.fst = s.map Prod.fst ∧
      optFlag s2 day h = some (!(getFlag s day h)) ∧
      ∀ d2 h2, ¬(d2 = day ∧ h2 = h) → optFlag s2 d2 h2 = optFlag s d2 h2 := by
  obtain ⟨r, hr⟩ := lookupDay_of_WF s day hs hday
  refine ⟨mapUpd s day (r.set h (!(r.get h))), by simp only [toggle, hr],
    mapUpd_keys s day _, ?_, ?_⟩
  · rw [optFlag, lookupDay_mapUpd_self, hr, getFlag, hr]
    simp only [Option.map_some', Option.getD_some]
    exact congrArg some (DayState.get_set_self r h (!(r.get h)))
  · intro d2 h2 hne
    by_cases hd : d2 = day
    · subst hd
      have hh : h2 ≠ h := fun hc => hne ⟨rfl, hc⟩
      rw [optFlag, optFlag, lookupDay_mapUpd_self, hr]
      simp only [Option.map_some']
      exact congrArg some (DayState.get_set_ne r h h2 (!(r.get h)) hh)
    · rw [optFlag, optFlag, lookupDay_mapUpd_ne s day d2 _ hd]

theorem C5_witness :
    (WF makeEmptyState ∧ 1 ≤ 1 ∧ 1 ≤ 75) ∧
      ∃ s2, toggle makeEmptyState 1 Habit.water = some s2 ∧
        s2.map Prod.fst = makeEmptyState.map Prod.fst ∧
        optFlag s2 1 Habit.water = some (!(getFlag makeEmptyState 1 Habit.water)) ∧
        ∀ d2 h2, ¬(d2 = 1 ∧ h2 = Habit.water) →
          optFlag s2 d2 h2 = optFlag makeEmptyState d2 h2 :=
  ⟨by decide, C5_toggle_frame_condition makeEmptyState (by decide) 1 (by decide) Habit.water⟩

/-- C6: load never fails: for every store, when the fixed key holds a parseable
blob the parsed value is returned; on a missing key, a falsy (empty) blob, or a
blob `JSON.parse` throws on, the caught failure degrades to the initial empty
state; being a total function, `load` raises nothing to the caller. -/
theorem C6_load_never_fails (store : Store) :
    (∀ j, store STORAGE_KEY = some (Raw.val j) → loadTracker store = j) ∧
    (store STORAGE_KEY = none → loadTracker store = encodeState makeEmptyState) ∧
    (store STORAGE_KEY = some Raw.empty → loadTracker store = encodeState makeEmptyState) ∧
    (store STORAGE_KEY = some Raw.malformed →
      loadTracker store = encodeState makeEmptyState) := by
  refine ⟨fun j hj => ?_, fun hm => ?_, fun he => ?_, fun hb => ?_⟩
  · simp only [loadTracker, load, hj]
  · simp only [loadTracker, load, hm]
  · simp only [loadTracker, load, he]
  · simp only [loadTracker, load, hb]

theorem C6_witness :
    loadTracker (fun _ => none) = encodeState makeEmptyState :=
  (C6_load_never_fails (fun _ => none)).2.1 rfl

/-- C7: reset is total erasure: for every prior tracker state, a confirmed
`resetAll` yields exactly `makeEmptyState()` — the well-formed 75-entry state
in which every habit flag of every day is false. -/
theorem C7_reset_total_erasure (s : TrackerState) :
    resetAll true s = makeEmptyState ∧ WF (resetAll true s) ∧
    ∀ (d : Fin 75) (h : Habit), optFlag (resetAll true s) (d.1 + 1) h = some false := by
  refine ⟨rfl, ?_, ?_⟩
  · simp only [resetAll, if_true]
    decide
  · simp only [resetAll, if_true]
    decide

/-- C8: start-date noninterference: two component states that agree on the
tracker slot and differ only in the stored start-date string produce identical
results under `toggle`, `resetAll` and `percentDone` — no engine computation
reads the start date. -/
theorem C8_startDate_noninterference (a b : AppState) (hab : a.tracker = b.tracker)
    (day : Nat) (h : Habit) (confirmed : Bool) :
    (appToggle a day h).map AppState.tracker = (appToggle b day h).map AppState.tracker ∧
    (appResetAll confirmed a).tracker = (appResetAll confirmed b).tracker ∧
    appPercentDone a = appPercentDone b := by
  refine ⟨?_, ?_, ?_⟩
  · rw [appToggle, appToggle, hab, Option.map_map, Option.map_map]
    rfl
  · simp only [appResetAll, hab]
  · simp only [appPercentDone, hab]

theorem C8_witness :
    (AppState.mk makeEmptyState "").tracker =
        (AppState.mk makeEmptyState "2026-01-01").tracker ∧
      ((appToggle (AppState.mk makeEmptyState "") 1 Habit.diet).map AppState.tracker =
          (appToggle (AppState.mk makeEmptyState "2026-01-01") 1 Habit.diet).map
            AppState.tracker ∧
        (appResetAll true (AppState.mk makeEmptyState "")).tracker =
          (appResetAll true (AppState.mk makeEmptyState "2026-01-01")).tracker ∧
        appPercentDone (AppState.mk makeEmptyState "") =
          appPercentDone (AppState.mk makeEmptyState "2026-01-01")) :=
  ⟨rfl, C8_startDate_noninterference (AppState.mk makeEmptyState "")
    (AppState.mk makeEmptyState "2026-01-01") rfl 1 Habit.diet true⟩

/-- C9: variant equivalence: the state-engine functions of the two source
variants in the file — `makeEmptyState`, `toggle`, `resetAll`'s state
replacement, the load/save logic of `useLocalStorageState`, and `percentDone` —
are extensionally equal. -/
theorem C9_variant_equivalence :
    V2.makeEmptyState = makeEmptyState ∧
    (∀ s day h, V2.toggle s day h = toggle s day h) ∧
    (∀ confirmed s, V2.resetAll confirmed s = resetAll confirmed s) ∧
    (∀ store key initial, V2.load store key initial = load store key initial) ∧
    (∀ store key v k, V2.save store key v k = save store key v k) ∧
    (∀ s, V2.percentDone s = percentDone s) :=
  ⟨rfl, fun _ _ _ => rfl, fun _ _ => rfl, fun _ _ _ => rfl, fun _ _ _ _ => rfl,
    fun _ => rfl⟩

/-- C10 counterexample: the claim's parenthetical says `percentDone` is 0
exactly when no flag is true; the state with exactly the one flag
`(day 1, diet)` true already has `percentDone = 0` (round of 100/375 = 0.27). -/
theorem C10_counterexample :
    percentDone oneFlagState = 0 ∧ getFlag oneFlagState 1 Habit.diet = true := by
  decide

/-- C10 (amended): for every tracker state over days 1..75, `percentDone` is an
integer between 0 and 100 inclusive; it is 0 exactly when at most one of the
375 flags is true, and 100 exactly when at least 374 of them are true. -/
theorem C10_percentDone_bounded (s : TrackerState) (hs : WF s) :
    percentDone s ≤ 100 ∧
    (percentDone s = 0 ↔ specNumerator s ≤ 1) ∧
    (percentDone s = 100 ↔ 374 ≤ specNumerator s) := by
  have hb : doneCount s ≤ 375 := doneCount_le s hs
  rw [← doneCount_eq_specNumerator s hs, percentDone]
  have h750 : (2 : Nat) * 375 = 750 := rfl
  rw [h750]
  omega

theorem C10_witness :
    WF makeEmptyState ∧
      (percentDone makeEmptyState ≤ 100 ∧
        (percentDone makeEmptyState = 0 ↔ specNumerator makeEmptyState ≤ 1) ∧
        (percentDone makeEmptyState = 100 ↔ 374 ≤ specNumerator makeEmptyState)) :=
  ⟨by decide, C10_percentDone_bounded makeEmptyState (by decide)⟩
